import Mathlib

/-!
Verification of the async call bridge of the pubsub-mcp repository.

The repository contains two structurally identical request/response
correlation bridges built on Effect-TS:

* `LlmClientServiceLive` in
  `src/mcps/readme-mcp/src/services/llm-client.service.ts`
  (the `sample` / `handleResponse` pair, keyed by `requestId`);
* `McpBridgeServiceLive` in
  `src/ai-svc/src/services/mcp-bridge.service.ts`
  (the `callTool` / `handleResponse` pair, keyed by `requestId`).

Each bridge keeps a `Ref` holding a JavaScript `Map` from request id to a
pending record that contains a single-assignment `Deferred` plus metadata.
This file gives a shallow embedding of the registry and deferred
operations of both bridges, of the wire schemas, and of the inbound HTTP
event handlers, and proves the properties of the frozen claim list
against them.

Modelling conventions:

* A JavaScript `Map` keyed by strings is modelled by an association list
  with unique keys; `Map.set` is modelled by cons-after-delete, which is
  observationally equivalent for `get`, `delete` and `has` (no code under
  scrutiny iterates a registry map, so insertion order is irrelevant).
* An Effect `Deferred` is modelled by `Option (Except e a)`: `none` means
  unresolved; completion is idempotent (a second completion attempt
  leaves the stored value unchanged, as `Deferred.succeed` and
  `Deferred.fail` do).
* JavaScript truthiness of an optional string field is modelled by
  `jsTruthyStr` (absent and empty string are falsy).
* All modelled operations are total Lean functions; the source
  operations never throw on the modelled paths (the Effect error
  channels that can carry failures are represented explicitly where a
  claim needs them).
-/

namespace PubsubMcp

/-- Log severity levels of the Effect logging calls used by the bridges. -/
inductive LogLevel where
  | debug
  | info
  | warning
  | error
deriving DecidableEq, Repr

/-- A logged diagnostic: severity plus the literal message text
(structured metadata fields of the source log calls are not modelled). -/
abbrev LogEntry := LogLevel × String

/-! ## JavaScript `Map` model (string-keyed association list) -/

/-- `Map.get`: the value stored at key `k`, if any. -/
def mapGet {α : Type} (m : List (String × α)) (k : String) : Option α :=
  match m with
  | [] => none
  | (k', v) :: rest => if k' = k then some v else mapGet rest k

/-- `Map.delete`: remove the entry with key `k`. -/
def mapDelete {α : Type} (m : List (String × α)) (k : String) : List (String × α) :=
  match m with
  | [] => []
  | (k', v) :: rest => if k' = k then mapDelete rest k else (k', v) :: mapDelete rest k

/-- `Map.set`: store `v` at key `k`, overwriting an existing entry. -/
def mapSet {α : Type} (m : List (String × α)) (k : String) (v : α) : List (String × α) :=
  (k, v) :: mapDelete m k

theorem mapGet_mapDelete_self {α : Type} (m : List (String × α)) (k : String) :
    mapGet (mapDelete m k) k = none := by
  induction m with
  | nil => rfl
  | cons p rest ih =>
    obtain ⟨k', v⟩ := p
    by_cases h : k' = k
    · simp [mapDelete, h, ih]
    · simp [mapDelete, mapGet, h, ih]

theorem mapGet_mapDelete_ne {α : Type} (m : List (String × α)) (k k' : String)
    (h : k ≠ k') : mapGet (mapDelete m k') k = mapGet m k := by
  induction m with
  | nil => rfl
  | cons p rest ih =>
    obtain ⟨k₀, v⟩ := p
    have h₂ : k' ≠ k := fun hk => h hk.symm
    by_cases h₀ : k₀ = k'
    · simp [mapDelete, mapGet, h₀, h₂, ih]
    · by_cases h₁ : k₀ = k
      · simp [mapDelete, mapGet, h₀, h₁, h, ih]
      · simp [mapDelete, mapGet, h₀, h₁, ih]

theorem mapGet_mapSet_self {α : Type} (m : List (String × α)) (k : String) (v : α) :
    mapGet (mapSet m k v) k = some v := by
  simp [mapSet, mapGet]

theorem mapGet_mapSet_ne {α : Type} (m : List (String × α)) (k k' : String) (v : α)
    (h : k ≠ k') : mapGet (mapSet m k' v) k = mapGet m k := by
  have hne : k' ≠ k := fun hk => h hk.symm
  simp [mapSet, mapGet, hne, mapGet_mapDelete_ne m k k' h]

/-! ## JavaScript values and truthiness -/

/-- A model of dynamically typed JavaScript data as it appears on the
wire (the TypeScript `unknown` payloads), including `null` and
`undefined`, whose dereference throws a TypeError. -/
inductive JsValue where
  | null
  | undef
  | str (s : String)
  | num (n : Int)
  | obj (fields : List (String × JsValue))

/-- Truthiness of a JavaScript value. -/
def jsTruthy : JsValue → Bool
  | .null => false
  | .undef => false
  | .str s => !(s == "")
  | .num n => !(n == 0)
  | .obj _ => true

/-- Truthiness of an optional string field, as tested by
`if (response.error)` in both `handleResponse` implementations: an
absent field and the empty string are falsy. -/
def jsTruthyStr : Option String → Bool
  | none => false
  | some s => !(s == "")

/-- Field lookup on a JavaScript object; any access on a non-object
yields `undefined`, modelled as `none`. -/
def getField (v : JsValue) (k : String) : Option JsValue :=
  match v with
  | .obj fields => mapGet fields k
  | _ => none

/-- JavaScript property access `d.k`: it throws a TypeError when `d` is
`null` or `undefined` (modelled as `none` — the enclosing Effect fiber
dies with a defect), and otherwise yields the property value, or
`undefined` when the property is absent or `d` is a primitive. -/
def jsGetProp (d : JsValue) (k : String) : Option JsValue :=
  match d with
  | JsValue.null => none
  | JsValue.undef => none
  | JsValue.obj fields => some ((mapGet fields k).getD JsValue.undef)
  | _ => some JsValue.undef

/-! ## Deferred store

Both bridges allocate one Effect `Deferred` per call.  The store is a
list indexed by allocation order; each cell is `none` while unresolved
and `some (Except.error e)` or `some (Except.ok v)` once completed.
Completion is idempotent, exactly as `Deferred.succeed` / `Deferred.fail`
are (a second completion returns `false` and changes nothing). -/

/-- Complete the deferred at index `i` with `v`, unless it is already
completed (in which case the store is unchanged). -/
def resolveAt {α : Type} (ds : List (Option α)) (i : Nat) (v : α) : List (Option α) :=
  match ds, i with
  | [], _ => []
  | d :: rest, 0 =>
    (match d with
     | none => some v
     | some w => some w) :: rest
  | d :: rest, i + 1 => d :: resolveAt rest i v

theorem resolveAt_of_resolved {α : Type} (ds : List (Option α)) (i j : Nat) (v w : α)
    (h : ds[i]? = some (some v)) :
    (resolveAt ds j w)[i]? = some (some v) := by
  induction ds generalizing i j with
  | nil => simp at h
  | cons d rest ih =>
    cases j with
    | zero =>
      cases i with
      | zero =>
        simp at h
        simp [resolveAt, h]
      | succ i => simpa [resolveAt] using h
    | succ j =>
      cases i with
      | zero => simpa [resolveAt] using h
      | succ i =>
        simp at h
        simpa [resolveAt] using ih i j h

theorem get?_append_left {α : Type} (l l' : List α) (i : Nat) (a : α)
    (h : l[i]? = some a) : (l ++ l')[i]? = some a := by
  induction l generalizing i with
  | nil => simp at h
  | cons x rest ih =>
    cases i with
    | zero => simpa using h
    | succ i =>
      simp at h
      simpa using ih i h

/-! ## The generic async call bridge

`BridgeOps` collects the per-instance parameters of the shared
request/response correlation pattern: how to read the correlation id and
error field out of a response, what to complete the deferred with in the
error and success branches of `handleResponse`, and the literal log
messages.  `Rec` is the metadata stored next to the deferred in the
pending map (`timestamp` for the LLM client; `timestamp` and `toolName`
for the MCP bridge). -/
structure BridgeOps (Rec Resp Val Err : Type) where
  respId : Resp → String
  respError : Resp → Option String
  failWith : Rec → Resp → Err
  okWith : Resp → Val
  recvMsg : String
  unknownMsg : String
  failMsg : String
  okMsg : String

/-- The mutable state of one bridge instance: the pending-request map
(`Ref` holding a `Map` from request id to deferred index plus metadata),
the deferred store, and the emitted log (most recent entry first). -/
structure BridgeState (Rec Err Val : Type) where
  pending : List (String × (Nat × Rec))
  deferreds : List (Option (Except Err Val))
  log : List LogEntry

/-- The empty bridge state (service just initialized). -/
def BridgeState.empty {Rec Err Val : Type} : BridgeState Rec Err Val :=
  { pending := [], deferreds := [], log := [] }

/-- The resolution state of the deferred allocated at index `i`:
`none` while unresolved (or never allocated), `some outcome` once
completed. -/
def getDeferred {Rec Err Val : Type} (s : BridgeState Rec Err Val) (i : Nat) :
    Option (Except Err Val) :=
  match s.deferreds[i]? with
  | some (some v) => some v
  | _ => none

/-- `handleResponse` as written in both services: look the correlation id
up in the pending map; if absent, log a warning and return; if present,
complete the deferred with failure when the error field is truthy and
with success otherwise.  The pending map is not modified on any path. -/
def handleResponse {Rec Resp Val Err : Type} (ops : BridgeOps Rec Resp Val Err)
    (resp : Resp) (s : BridgeState Rec Err Val) : BridgeState Rec Err Val :=
  let s₀ : BridgeState Rec Err Val := { s with log := (LogLevel.debug, ops.recvMsg) :: s.log }
  match mapGet s.pending (ops.respId resp) with
  | none =>
    { s₀ with log := (LogLevel.warning, ops.unknownMsg) :: s₀.log }
  | some (did, rec) =>
    if jsTruthyStr (ops.respError resp) then
      { s₀ with
        deferreds := resolveAt s₀.deferreds did (Except.error (ops.failWith rec resp)),
        log := (LogLevel.error, ops.failMsg) :: s₀.log }
    else
      { s₀ with
        deferreds := resolveAt s₀.deferreds did (Except.ok (ops.okWith resp)),
        log := (LogLevel.info, ops.okMsg) :: s₀.log }

/-- The atomic registry and delivery events of a bridge instance:
* `register` — `Deferred.make` followed by the `Ref.update` that inserts
  the pending record, executed inside `sample` / `callTool` before the
  publish step;
* `deliver` — an invocation of `handleResponse`;
* `timeoutFire` — the registry cleanup performed by the timeout arm of
  the `Effect.race` after `Effect.sleep`;
* `cleanup` — the post-race cleanup executed by the calling fiber after
  the race succeeds. -/
inductive Event (Rec Resp : Type) where
  | register (id : String) (rec : Rec)
  | deliver (resp : Resp)
  | timeoutFire (id : String)
  | cleanup (id : String)

/-- Effect of one event on the bridge state. -/
def step {Rec Resp Val Err : Type} (ops : BridgeOps Rec Resp Val Err)
    (e : Event Rec Resp) (s : BridgeState Rec Err Val) : BridgeState Rec Err Val :=
  match e with
  | .register id rec =>
    { s with
      deferreds := s.deferreds ++ [none],
      pending := mapSet s.pending id (s.deferreds.length, rec) }
  | .deliver resp => handleResponse ops resp s
  | .timeoutFire id => { s with pending := mapDelete s.pending id }
  | .cleanup id => { s with pending := mapDelete s.pending id }

/-- Run a sequence of events in order. -/
def run {Rec Resp Val Err : Type} (ops : BridgeOps Rec Resp Val Err) :
    List (Event Rec Resp) → BridgeState Rec Err Val → BridgeState Rec Err Val
  | [], s => s
  | e :: t, s => run ops t (step ops e s)

/-! ## Error taxonomy (from `src/mcps/readme-mcp/src/errors.ts` and
`src/ai-svc/src/services/mcp-bridge.service.ts`)

Each Effect `Data.TaggedError` carries a string discriminant `_tag`;
the discriminant is modelled by a `tag` function on the error unions
below.  Optional `cause` fields of type `unknown` are not modelled. -/

/-- `LlmClientError` (readme-mcp `errors.ts`). -/
structure LlmClientError where
  operation : String
  message : String
deriving DecidableEq, Repr

/-- `TimeoutError` (readme-mcp `errors.ts` lines 69 to 73). -/
structure TimeoutError where
  operation : String
  timeoutMs : Nat
  message : String
deriving DecidableEq, Repr

/-- `DaprError` (both services): a failed Dapr operation, in particular a
failed `publishEvent`. -/
structure DaprError where
  operation : String
  message : String
deriving DecidableEq, Repr

/-- The error channel of `LlmClientService.sample`:
`LlmClientError | TimeoutError | DaprError`. -/
inductive SampleError where
  | llm (e : LlmClientError)
  | timeout (e : TimeoutError)
  | dapr (e : DaprError)
deriving DecidableEq, Repr

/-- The `_tag` discriminant of a `sample` error. -/
def SampleError.tag : SampleError → String
  | .llm _ => "LlmClientError"
  | .timeout _ => "TimeoutError"
  | .dapr _ => "DaprError"

/-- `McpToolError` (mcp-bridge.service.ts): remote-reported tool
failure; `cause` holds the error string from the response envelope. -/
structure McpToolError where
  toolName : String
  cause : String
deriving DecidableEq, Repr

/-- `McpToolTimeoutError` (mcp-bridge.service.ts lines 314 to 319). -/
structure McpToolTimeoutError where
  toolName : String
  requestId : String
  timeoutMs : Nat
deriving DecidableEq, Repr

/-- The error channel of `McpBridgeService.callTool`:
`McpToolError | McpToolTimeoutError | DaprError`. -/
inductive CallToolError where
  | tool (e : McpToolError)
  | timeout (e : McpToolTimeoutError)
  | dapr (e : DaprError)
deriving DecidableEq, Repr

/-- The `_tag` discriminant of a `callTool` error. -/
def CallToolError.tag : CallToolError → String
  | .tool _ => "McpToolError"
  | .timeout _ => "McpToolTimeoutError"
  | .dapr _ => "DaprError"

/-! ## Wire data types -/

/-- `SamplingResponse` (`schemas.ts` of both services): `requestId`,
`content` and `model` are required; `tokensUsed` and `error` are
optional. -/
structure SamplingResponse where
  requestId : String
  content : String
  model : String
  tokensUsed : Option Int
  error : Option String

/-- `McpToolResponse` (`mcp-bridge.service.ts` lines 333 to 337 and
`McpToolResponseSchema` in mcp-srvr `errors.ts` lines 231 to 235):
`requestId` is required; `result` and `error` are both optional. -/
structure McpToolResponse where
  requestId : String
  result : Option JsValue
  error : Option String

/-- Pending-record metadata of the MCP bridge (`PendingRequest` there
stores `timestamp` and `toolName` next to the deferred). -/
structure McpPendingInfo where
  timestamp : Nat
  toolName : String
deriving DecidableEq, Repr

/-! ## The two bridge instances -/

/-- The LLM client bridge (`llm-client.service.ts`): pending metadata is
the timestamp; the deferred carries `String` content or
`LlmClientError`; the error branch builds
`LlmClientError(operation sample, message = response.error)` and the
success branch completes with `response.content`. -/
def llmOps : BridgeOps Nat SamplingResponse String LlmClientError where
  respId := fun r => r.requestId
  respError := fun r => r.error
  failWith := fun _ r => { operation := "sample", message := r.error.getD "" }
  okWith := fun r => r.content
  recvMsg := "Received sampling response"
  unknownMsg := "Received response for unknown request"
  failMsg := "Sampling request failed"
  okMsg := "Sampling request succeeded"

/-- The MCP tool bridge (`mcp-bridge.service.ts`): pending metadata is
timestamp plus tool name; the deferred carries an `unknown` result
(possibly `undefined`, hence `Option JsValue`) or `McpToolError`; the
error branch builds `McpToolError(toolName, response.error)` and the
success branch completes with `response.result`. -/
def mcpOps : BridgeOps McpPendingInfo McpToolResponse (Option JsValue) McpToolError where
  respId := fun r => r.requestId
  respError := fun r => r.error
  failWith := fun rec r => { toolName := rec.toolName, cause := r.error.getD "" }
  okWith := fun r => r.result
  recvMsg := "Received MCP tool response"
  unknownMsg := "Received response for unknown request"
  failMsg := "MCP tool request failed"
  okMsg := "MCP tool request succeeded"

/-- State of the LLM client bridge. -/
abbrev LlmState := BridgeState Nat LlmClientError String

/-- State of the MCP tool bridge. -/
abbrev McpState := BridgeState McpPendingInfo McpToolError (Option JsValue)

/-! ## The call lifecycle

`sample` (llm-client.service.ts lines 56 to 121) and `callTool`
(mcp-bridge.service.ts lines 390 to 452) are straight-line Effect
generators with the same statement order, modelled by the transcript
below; `awaitRace` is the only suspension point. -/

/-- The effectful steps of one `sample` / `callTool` invocation, in
source order. -/
inductive CallStep where
  | makeDeferred
  | registerPending
  | publishRequest
  | awaitRace
  | postRaceCleanup
deriving DecidableEq, Repr

/-- Statement order of the bridge call body, common to `sample` and
`callTool`: create the deferred, insert the pending record, publish the
request envelope, await the race, then clean up. -/
def bridgeCallOrder : List CallStep :=
  [CallStep.makeDeferred, CallStep.registerPending, CallStep.publishRequest,
   CallStep.awaitRace, CallStep.postRaceCleanup]

/-- The `TimeoutError` value the timeout arm of `sample` fails with
(lines 104 to 110); its message interpolates the request id and the
configured timeout.  The arm performs `Event.timeoutFire` on the
registry and then `Effect.fail`s with this error — a failure inside
`Effect.race`, which is not the same as the call yielding it (see
`raceWithFailedArm`). -/
def sampleTimeoutArmError (requestId : String) (timeoutMs : Nat) : TimeoutError :=
  { operation := "sample", timeoutMs := timeoutMs,
    message := "Sampling request " ++ requestId ++ " timed out after " ++
      toString timeoutMs ++ "ms" }

/-- The tool-call timeout configured in `mcp-bridge.service.ts`
(line 377): 30000 milliseconds. -/
def toolTimeout : Nat := 30000

/-- The `McpToolTimeoutError` value the timeout arm of `callTool` fails
with (line 440), after its `Event.timeoutFire` registry delete. -/
def callToolTimeoutArmError (toolName requestId : String) : McpToolTimeoutError :=
  { toolName := toolName, requestId := requestId, timeoutMs := toolTimeout }

/-- Possible outcomes of `Effect.race(Deferred.await d, arm)` once `arm`
has already failed.  `Effect.race` returns the first arm to succeed;
when one arm fails it awaits the other, and it fails only when both arms
have failed.  The argument is the final state the deferred ever reaches
(it is single-assignment): if it succeeds the race yields that value; if
it fails, both arms have failed and the race fails with the combined
cause; if it never completes, the race — and the calling fiber suspended
on it — never completes at all, so the failed arm's error is never
yielded to the caller. -/
inductive RaceOutcome (Val Err : Type) where
  | succeeds (v : Val)
  | failsBoth (e : Err)
  | neverCompletes

/-- Resolve the race against an already-failed arm, per the semantics
described on `RaceOutcome`. -/
def raceWithFailedArm {Val Err : Type} : Option (Except Err Val) → RaceOutcome Val Err
  | some (Except.ok v) => RaceOutcome.succeeds v
  | some (Except.error e) => RaceOutcome.failsBoth e
  | none => RaceOutcome.neverCompletes

/-- The prefix of `sample` that runs when `dapr.publishEvent` fails: the
deferred is created and the pending record inserted (lines 66 to 74),
then the publish step fails with a `DaprError`; the generator aborts, so
neither the race nor any cleanup runs, and the resulting bridge state is
the post-registration state. -/
def sampleOnPublishFailure (requestId : String) (ts : Nat) (e : DaprError) (s : LlmState) :
    LlmState × SampleError :=
  (step llmOps (Event.register requestId ts) s, SampleError.dapr e)

/-- The prefix of `callTool` that runs when `dapr.publishEvent` fails,
with the same shape as `sampleOnPublishFailure` (lines 400 to 426). -/
def callToolOnPublishFailure (toolName requestId : String) (ts : Nat) (e : DaprError)
    (s : McpState) : McpState × CallToolError :=
  (step mcpOps (Event.register requestId { timestamp := ts, toolName := toolName }) s,
   CallToolError.dapr e)

/-! ## Schema decoders

`@effect/schema` struct decoding, specialised to the response schemas.
A required string field must be present with a string value; an optional
field may be missing (absent `undefined` values are treated as absent);
an optional `Schema.Unknown` field accepts any present value. -/

/-- Decode a `Schema.optional(Schema.String)` field: outer `none` means
the whole decode fails (present with a non-string, non-undefined value);
inner `none` means the field is absent. -/
def decodeOptStringField (v : JsValue) (k : String) : Option (Option String) :=
  match getField v k with
  | none => some none
  | some JsValue.undef => some none
  | some (JsValue.str s) => some (some s)
  | some _ => none

/-- Decode a `Schema.optional(Schema.Number)` field. -/
def decodeOptNumberField (v : JsValue) (k : String) : Option (Option Int) :=
  match getField v k with
  | none => some none
  | some JsValue.undef => some none
  | some (JsValue.num n) => some (some n)
  | some _ => none

/-- Decode a required `Schema.String` field. -/
def decodeStringField (v : JsValue) (k : String) : Option String :=
  match getField v k with
  | some (JsValue.str s) => some s
  | _ => none

/-- `McpToolResponseSchema` (mcp-srvr `errors.ts` lines 231 to 235):
`requestId` required string, `result` optional unknown, `error` optional
string. -/
def decodeMcpToolResponse (v : JsValue) : Option McpToolResponse :=
  match decodeStringField v "requestId", decodeOptStringField v "error" with
  | some rid, some err =>
    some { requestId := rid, result := getField v "result", error := err }
  | _, _ => none

/-- `SamplingResponseSchema` (ai-svc `schemas.ts` lines 94 to 100):
`requestId`, `content` and `model` required strings, `tokensUsed`
optional number, `error` optional string. -/
def decodeSamplingResponse (v : JsValue) : Option SamplingResponse :=
  match decodeStringField v "requestId", decodeStringField v "content",
        decodeStringField v "model", decodeOptNumberField v "tokensUsed",
        decodeOptStringField v "error" with
  | some rid, some content, some model, some tok, some err =>
    some { requestId := rid, content := content, model := model,
           tokensUsed := tok, error := err }
  | _, _, _, _, _ => none

/-! ## CloudEvent envelope and inbound event routers -/

/-- `CloudEventSchema` (both `schemas.ts` files): required string fields
`specversion`, `type`, `source`, `id` and a required `data` payload of
type `Schema.Unknown`.  The optional trace and topic fields are not
modelled (no claim exercises them). -/
structure CloudEvent where
  specversion : String
  type : String
  source : String
  id : String
  data : JsValue

/-- `Schema.decodeUnknown(CloudEventSchema)`, restricted to the modelled
fields. -/
def decodeCloudEvent (v : JsValue) : Option CloudEvent :=
  match decodeStringField v "specversion", decodeStringField v "type",
        decodeStringField v "source", decodeStringField v "id",
        getField v "data" with
  | some sv, some ty, some src, some id, some d =>
    some { specversion := sv, type := ty, source := src, id := id, data := d }
  | _, _, _, _, _ => none

/-- The TypeScript cast `eventData.data as SamplingResponse`
(readme-mcp `index.ts` line 178): no validation happens; each field is
read dynamically at its use site.  A missing or non-string field reads
as `undefined`; since the registry keys are UUID strings, such a read
never matches a registered id, which the model renders with a sentinel
string. -/
def samplingResponseOfData (d : JsValue) : SamplingResponse :=
  { requestId :=
      match getField d "requestId" with
      | some (JsValue.str s) => s
      | _ => "undefined"
    content :=
      match getField d "content" with
      | some (JsValue.str s) => s
      | _ => "undefined"
    model :=
      match getField d "model" with
      | some (JsValue.str s) => s
      | _ => "undefined"
    tokensUsed :=
      match getField d "tokensUsed" with
      | some (JsValue.num n) => some n
      | _ => none
    error :=
      match getField d "error" with
      | some (JsValue.str s) => some s
      | _ => none }

/-- The TypeScript cast `decoded.data as any` passed to
`mcpBridge.handleResponse` (ai-svc `index.ts` line 265), with the same
conventions as `samplingResponseOfData`. -/
def mcpToolResponseOfData (d : JsValue) : McpToolResponse :=
  { requestId :=
      match getField d "requestId" with
      | some (JsValue.str s) => s
      | _ => "undefined"
    result := getField d "result"
    error :=
      match getField d "error" with
      | some (JsValue.str s) => some s
      | _ => none }

/-- The observable outcome of one inbound HTTP pub/sub handler run:
either an HTTP response with the given status was written, or the fiber
died on an uncaught defect and no response was written at all
(`Effect.catchAll` handles failures on the error channel, not defects,
so a thrown TypeError escapes it and `Runtime.runPromise` merely
rejects). -/
inductive HandlerResult (σ : Type) where
  | reply (status : Nat) (s : σ)
  | died (s : σ)

/-- The HTTP status written by a handler run, `none` when the fiber died
without replying. -/
def HandlerResult.status {σ : Type} : HandlerResult σ → Option Nat
  | .reply st _ => some st
  | .died _ => none

/-- The bridge state after a handler run. -/
def HandlerResult.state {σ : Type} : HandlerResult σ → σ
  | .reply _ s => s
  | .died s => s

/-- The readme-mcp `POST /mcp-events` handler (`index.ts` lines 163 to
195): log a debug line, decode the CloudEvent (a failure is caught by
`Effect.catchAll`, logged at error level and answered with HTTP 500);
on success, log an info line and, for events of type
`mcp.sampling.response`, forward the data cast to `handleResponse` —
whose very first field access `response.requestId` throws a TypeError
when the data payload is `null` or `undefined`, killing the fiber before
any registry work and before any reply; otherwise answer HTTP 200. -/
def mcpEventsHandler (body : JsValue) (s : LlmState) : HandlerResult LlmState :=
  let s₁ : LlmState := { s with log := (LogLevel.debug, "Received MCP event") :: s.log }
  match decodeCloudEvent body with
  | none =>
    HandlerResult.reply 500
      { s₁ with log := (LogLevel.error, "Failed to process event") :: s₁.log }
  | some ev =>
    let s₂ : LlmState :=
      { s₁ with log := (LogLevel.info, "Processing sampling response") :: s₁.log }
    if ev.type = "mcp.sampling.response" then
      match jsGetProp ev.data "requestId" with
      | none => HandlerResult.died s₂
      | some _ =>
        HandlerResult.reply 200 (handleResponse llmOps (samplingResponseOfData ev.data) s₂)
    else
      HandlerResult.reply 200 s₂

/-- The ai-svc `POST /mcp-tool-events` handler (`index.ts` lines 254 to
282): decode the CloudEvent (failure is caught, logged at error level
and answered with HTTP 500); on success forward events of type
`mcp.tool.response` to the MCP bridge `handleResponse` — again dying on
the `response.requestId` access when the data payload is `null` or
`undefined` — and answer HTTP 200. -/
def mcpToolEventsHandler (body : JsValue) (s : McpState) : HandlerResult McpState :=
  let s₁ : McpState :=
    { s with log := (LogLevel.info, "Received MCP tool response from Dapr pub/sub") :: s.log }
  match decodeCloudEvent body with
  | none =>
    HandlerResult.reply 500
      { s₁ with log := (LogLevel.error, "Error processing MCP tool response") :: s₁.log }
  | some ev =>
    if ev.type = "mcp.tool.response" then
      match jsGetProp ev.data "requestId" with
      | none => HandlerResult.died s₁
      | some _ =>
        HandlerResult.reply 200 (handleResponse mcpOps (mcpToolResponseOfData ev.data) s₁)
    else
      HandlerResult.reply 200 s₁

/-! ## The ai-svc `POST /ai-events` routing (`index.ts` lines 195 to 236) -/

/-- Outcome of the `/ai-events` routing condition: handled as an agent
request, handled as a sampling request, rejected with the given HTTP
status, or crashed — the routing expression itself threw a TypeError,
the fiber died as a defect (`Effect.catchAll` handles failures, not
defects) and no HTTP response was written at all. -/
inductive AiEventOutcome where
  | agentHandled
  | samplingHandled
  | rejected (status : Nat)
  | crashed
deriving DecidableEq, Repr

/-- The routing performed by the `/ai-events` handler on a validated
CloudEvent (`index.ts` lines 195 to 236): `agent.request` events go to
the message handler; otherwise the condition
`decoded.type === "sampling.request" || (decoded.data as any).requestId`
is evaluated — `||` short-circuits, so the property access only runs
when the type is not `sampling.request`, and it throws a TypeError when
`data` is `null` or `undefined`, killing the fiber; when it yields a
value, a truthy one routes to the sampling service and everything else
is answered with HTTP 400. -/
def aiEventsRoute (ev : CloudEvent) : AiEventOutcome :=
  if ev.type = "agent.request" then
    AiEventOutcome.agentHandled
  else if ev.type = "sampling.request" then
    AiEventOutcome.samplingHandled
  else
    match jsGetProp ev.data "requestId" with
    | none => AiEventOutcome.crashed
    | some v =>
      if jsTruthy v then AiEventOutcome.samplingHandled
      else AiEventOutcome.rejected 400

/-! ## Shared lemmas about the bridge operations -/

theorem handleResponse_pending {Rec Resp Val Err : Type} (ops : BridgeOps Rec Resp Val Err)
    (resp : Resp) (s : BridgeState Rec Err Val) :
    (handleResponse ops resp s).pending = s.pending := by
  unfold handleResponse
  split
  · rfl
  · split <;> rfl

theorem handleResponse_unknown {Rec Resp Val Err : Type} (ops : BridgeOps Rec Resp Val Err)
    (resp : Resp) (s : BridgeState Rec Err Val)
    (h : mapGet s.pending (ops.respId resp) = none) :
    handleResponse ops resp s =
      { s with log := (LogLevel.warning, ops.unknownMsg) ::
          (LogLevel.debug, ops.recvMsg) :: s.log } := by
  unfold handleResponse
  simp only [h]

theorem handleResponse_matched {Rec Resp Val Err : Type} (ops : BridgeOps Rec Resp Val Err)
    (resp : Resp) (s : BridgeState Rec Err Val) (did : Nat) (rec : Rec)
    (h : mapGet s.pending (ops.respId resp) = some (did, rec)) :
    (handleResponse ops resp s).deferreds =
      resolveAt s.deferreds did
        (if jsTruthyStr (ops.respError resp) then Except.error (ops.failWith rec resp)
         else Except.ok (ops.okWith resp)) := by
  unfold handleResponse
  simp only [h]
  by_cases ht : jsTruthyStr (ops.respError resp) <;> simp [ht]

theorem getDeferred_eq_some_iff {Rec Err Val : Type} (s : BridgeState Rec Err Val)
    (i : Nat) (v : Except Err Val) :
    getDeferred s i = some v ↔ s.deferreds[i]? = some (some v) := by
  unfold getDeferred
  cases h : s.deferreds[i]? with
  | none => simp
  | some o => cases o <;> simp

theorem resolveAt_of_unresolved {α : Type} (ds : List (Option α)) (i : Nat) (v : α)
    (h : ds[i]? = some none) : (resolveAt ds i v)[i]? = some (some v) := by
  induction ds generalizing i with
  | nil => simp at h
  | cons d rest ih =>
    cases i with
    | zero =>
      simp at h
      simp [resolveAt, h]
    | succ i =>
      simp at h
      simpa [resolveAt] using ih i h

/-- Once a deferred is completed, no later bridge event changes its
stored outcome: registration appends a fresh cell, delivery either skips
the store or calls the idempotent `resolveAt`, and the timeout and
cleanup paths touch only the pending map. -/
theorem step_preserves_resolved {Rec Resp Val Err : Type} (ops : BridgeOps Rec Resp Val Err)
    (e : Event Rec Resp) (s : BridgeState Rec Err Val) (i : Nat) (v : Except Err Val)
    (h : getDeferred s i = some v) : getDeferred (step ops e s) i = some v := by
  rw [getDeferred_eq_some_iff] at h ⊢
  cases e with
  | register id rec => exact get?_append_left _ _ _ _ h
  | deliver resp =>
    show (handleResponse ops resp s).deferreds[i]? = some (some v)
    unfold handleResponse
    split
    · simpa using h
    · split <;> simpa using resolveAt_of_resolved _ _ _ _ _ h
  | timeoutFire id => simpa using h
  | cleanup id => simpa using h

theorem run_preserves_resolved {Rec Resp Val Err : Type} (ops : BridgeOps Rec Resp Val Err)
    (t : List (Event Rec Resp)) (s : BridgeState Rec Err Val) (i : Nat) (v : Except Err Val)
    (h : getDeferred s i = some v) : getDeferred (run ops t s) i = some v := by
  induction t generalizing s with
  | nil => exact h
  | cons e t ih => exact ih (step ops e s) (step_preserves_resolved ops e s i v h)

/-- Once a correlation id is absent from the pending map, every event
other than a registration of that same id keeps it absent. -/
theorem step_preserves_absent {Rec Resp Val Err : Type} (ops : BridgeOps Rec Resp Val Err)
    (e : Event Rec Resp) (s : BridgeState Rec Err Val) (id : String)
    (h : mapGet s.pending id = none) (hne : ∀ rec, e ≠ Event.register id rec) :
    mapGet (step ops e s).pending id = none := by
  cases e with
  | register id' rec =>
    have hid : id ≠ id' := by
      intro hid
      exact hne rec (by rw [hid])
    show mapGet (mapSet s.pending id' (s.deferreds.length, rec)) id = none
    rw [mapGet_mapSet_ne _ _ _ _ hid]
    exact h
  | deliver resp =>
    show mapGet (handleResponse ops resp s).pending id = none
    rw [handleResponse_pending]
    exact h
  | timeoutFire id' =>
    show mapGet (mapDelete s.pending id') id = none
    by_cases hid : id = id'
    · rw [hid, mapGet_mapDelete_self]
    · rw [mapGet_mapDelete_ne _ _ _ hid]
      exact h
  | cleanup id' =>
    show mapGet (mapDelete s.pending id') id = none
    by_cases hid : id = id'
    · rw [hid, mapGet_mapDelete_self]
    · rw [mapGet_mapDelete_ne _ _ _ hid]
      exact h

theorem run_preserves_absent {Rec Resp Val Err : Type} (ops : BridgeOps Rec Resp Val Err)
    (t : List (Event Rec Resp)) (s : BridgeState Rec Err Val) (id : String)
    (h : mapGet s.pending id = none) (hne : ∀ rec, Event.register id rec ∉ t) :
    mapGet (run ops t s).pending id = none := by
  induction t generalizing s with
  | nil => exact h
  | cons e t ih =>
    have he : ∀ rec, e ≠ Event.register id rec := by
      intro rec heq
      exact hne rec (by rw [heq]; exact List.mem_cons_self _ _)
    have ht : ∀ rec, Event.register id rec ∉ t := by
      intro rec hmem
      exact hne rec (List.mem_cons_of_mem _ hmem)
    exact ih (step ops e s) (step_preserves_absent ops e s id h he) ht

/-! ## Concrete fixtures used by counterexamples and witnesses -/

/-- An LLM bridge state with one in-flight request `r1` whose deferred
(index 0) is unresolved; registered at timestamp 5. -/
def c1State : LlmState :=
  { pending := [("r1", (0, 5))], deferreds := [none], log := [] }

/-- A success response envelope for request `r1`. -/
def c1Resp : SamplingResponse :=
  { requestId := "r1", content := "answer", model := "azure/gpt-4.1",
    tokensUsed := none, error := none }

/-- Pending-record metadata of the in-flight tool call `t1`. -/
def c1Rec : McpPendingInfo := { timestamp := 7, toolName := "validate-readme" }

/-- An MCP bridge state with one in-flight tool call `t1` whose deferred
(index 0) is unresolved. -/
def c1McpState : McpState :=
  { pending := [("t1", (0, c1Rec))], deferreds := [none], log := [] }

/-- A success tool response envelope for request `t1`. -/
def c1McpResp : McpToolResponse :=
  { requestId := "t1", result := some (JsValue.str "ok"), error := none }

/-- C1.  The claim asserts that `handleResponse` removes the matched
record from the registry before resolving its waiter.  It does not: on
the matched branch both implementations complete the deferred and leave
the pending map untouched.  Concretely, delivering a success response
for the registered id `r1` resolves the waiter while the registry still
contains `r1`. -/
theorem handleResponse_remove_before_resolve_counterexample :
    getDeferred (handleResponse llmOps c1Resp c1State) 0 = some (Except.ok "answer") ∧
    mapGet (handleResponse llmOps c1Resp c1State).pending "r1" = some (0, 5) := by
  constructor <;> rfl

/-- C1 amended.  `handleResponse` resolves the matched waiter with
success or failure according to the response content but never removes
the record: the pending map is unchanged on every path.  The record is
removed only afterwards, by the calling fiber — the post-race cleanup or
the timeout arm of `sample` / `callTool` — so removal happens after
resolution, not before. -/
theorem handleResponse_resolves_without_removing
    (s : LlmState) (r : SamplingResponse) (did rec : Nat)
    (t : McpState) (q : McpToolResponse) (didM : Nat) (recM : McpPendingInfo)
    (u : LlmState) (w : McpState) (idL idM : String)
    (h : mapGet s.pending r.requestId = some (did, rec))
    (hM : mapGet t.pending q.requestId = some (didM, recM)) :
    (handleResponse llmOps r s).pending = s.pending ∧
    (handleResponse llmOps r s).deferreds =
      resolveAt s.deferreds did
        (if jsTruthyStr r.error then
           Except.error { operation := "sample", message := r.error.getD "" }
         else Except.ok r.content) ∧
    (handleResponse mcpOps q t).pending = t.pending ∧
    (handleResponse mcpOps q t).deferreds =
      resolveAt t.deferreds didM
        (if jsTruthyStr q.error then
           Except.error { toolName := recM.toolName, cause := q.error.getD "" }
         else Except.ok q.result) ∧
    mapGet (step llmOps (Event.cleanup idL) u).pending idL = none ∧
    mapGet (step llmOps (Event.timeoutFire idL) u).pending idL = none ∧
    mapGet (step mcpOps (Event.cleanup idM) w).pending idM = none ∧
    mapGet (step mcpOps (Event.timeoutFire idM) w).pending idM = none := by
  refine ⟨handleResponse_pending llmOps r s,
          handleResponse_matched llmOps r s did rec h,
          handleResponse_pending mcpOps q t,
          handleResponse_matched mcpOps q t didM recM hM,
          mapGet_mapDelete_self u.pending idL,
          mapGet_mapDelete_self u.pending idL,
          mapGet_mapDelete_self w.pending idM,
          mapGet_mapDelete_self w.pending idM⟩

/-- C1 amended, witness at concrete inputs. -/
theorem handleResponse_resolves_without_removing_witness :
    (handleResponse llmOps c1Resp c1State).pending = c1State.pending ∧
    (handleResponse llmOps c1Resp c1State).deferreds =
      resolveAt c1State.deferreds 0
        (if jsTruthyStr c1Resp.error then
           Except.error { operation := "sample", message := c1Resp.error.getD "" }
         else Except.ok c1Resp.content) ∧
    (handleResponse mcpOps c1McpResp c1McpState).pending = c1McpState.pending ∧
    (handleResponse mcpOps c1McpResp c1McpState).deferreds =
      resolveAt c1McpState.deferreds 0
        (if jsTruthyStr c1McpResp.error then
           Except.error { toolName := c1Rec.toolName, cause := c1McpResp.error.getD "" }
         else Except.ok c1McpResp.result) ∧
    mapGet (step llmOps (Event.cleanup "r1") c1State).pending "r1" = none ∧
    mapGet (step llmOps (Event.timeoutFire "r1") c1State).pending "r1" = none ∧
    mapGet (step mcpOps (Event.cleanup "t1") c1McpState).pending "t1" = none ∧
    mapGet (step mcpOps (Event.timeoutFire "t1") c1McpState).pending "t1" = none :=
  handleResponse_resolves_without_removing c1State c1Resp 0 5 c1McpState c1McpResp 0
    c1Rec c1State c1McpState "r1" "t1" rfl rfl

/-- C2.  For every correlation id, at most one of delivery and timeout
resolves the waiter, and the loser is a harmless no-op.  In the code the
timeout arm never touches any deferred (it only deletes the registry
entry), so only delivery can resolve a waiter; once a deferred is
completed, no later event — including a duplicate or late delivery and a
late-firing timer — changes its stored outcome (`Deferred` completion is
idempotent); and a delivery whose id is absent from the registry (the
timeout already removed it) only logs a warning.  All modelled
operations are total, so no path throws. -/
theorem at_most_one_resolution
    (s : LlmState) (tr : List (Event Nat SamplingResponse)) (i : Nat)
    (v : Except LlmClientError String) (r : SamplingResponse) (idL : String)
    (t : McpState) (trM : List (Event McpPendingInfo McpToolResponse)) (j : Nat)
    (w : Except McpToolError (Option JsValue)) (q : McpToolResponse) (idM : String)
    (hv : getDeferred s i = some v)
    (hr : mapGet s.pending r.requestId = none)
    (hw : getDeferred t j = some w)
    (hq : mapGet t.pending q.requestId = none) :
    getDeferred (run llmOps tr s) i = some v ∧
    handleResponse llmOps r s =
      { s with log := (LogLevel.warning, "Received response for unknown request") ::
          (LogLevel.debug, "Received sampling response") :: s.log } ∧
    (step llmOps (Event.timeoutFire idL) s).deferreds = s.deferreds ∧
    getDeferred (run mcpOps trM t) j = some w ∧
    handleResponse mcpOps q t =
      { t with log := (LogLevel.warning, "Received response for unknown request") ::
          (LogLevel.debug, "Received MCP tool response") :: t.log } ∧
    (step mcpOps (Event.timeoutFire idM) t).deferreds = t.deferreds :=
  ⟨run_preserves_resolved llmOps tr s i v hv,
   handleResponse_unknown llmOps r s hr,
   rfl,
   run_preserves_resolved mcpOps trM t j w hw,
   handleResponse_unknown mcpOps q t hq,
   rfl⟩

/-- State of the LLM bridge after request `r9` was resolved and cleaned
up: registry empty, deferred 0 completed with success. -/
def c2State : LlmState :=
  { pending := [], deferreds := [some (Except.ok "done")], log := [] }

/-- A late response for `r9`, arriving after the timeout removed it. -/
def c2LateResp : SamplingResponse :=
  { requestId := "r9", content := "late", model := "azure/gpt-4.1",
    tokensUsed := none, error := none }

/-- State of the MCP bridge after tool call `t9` was resolved and
cleaned up. -/
def c2McpState : McpState :=
  { pending := [], deferreds := [some (Except.ok (some (JsValue.str "done")))], log := [] }

/-- A late tool response for `t9`. -/
def c2McpLateResp : McpToolResponse :=
  { requestId := "t9", result := some (JsValue.str "late"), error := none }

/-- C2, witness: a late delivery plus a late timer firing after the
waiter of `r9` / `t9` was already resolved leave the stored outcome
unchanged, and the late delivery itself is a warning-logging no-op. -/
theorem at_most_one_resolution_witness :
    getDeferred (run llmOps [Event.deliver c2LateResp, Event.timeoutFire "r9"] c2State) 0
      = some (Except.ok "done") ∧
    handleResponse llmOps c2LateResp c2State =
      { c2State with log := (LogLevel.warning, "Received response for unknown request") ::
          (LogLevel.debug, "Received sampling response") :: c2State.log } ∧
    (step llmOps (Event.timeoutFire "r9") c2State).deferreds = c2State.deferreds ∧
    getDeferred (run mcpOps [Event.deliver c2McpLateResp, Event.timeoutFire "t9"] c2McpState) 0
      = some (Except.ok (some (JsValue.str "done"))) ∧
    handleResponse mcpOps c2McpLateResp c2McpState =
      { c2McpState with log := (LogLevel.warning, "Received response for unknown request") ::
          (LogLevel.debug, "Received MCP tool response") :: c2McpState.log } ∧
    (step mcpOps (Event.timeoutFire "t9") c2McpState).deferreds = c2McpState.deferreds :=
  at_most_one_resolution c2State [Event.deliver c2LateResp, Event.timeoutFire "r9"] 0
    (Except.ok "done") c2LateResp "r9" c2McpState
    [Event.deliver c2McpLateResp, Event.timeoutFire "t9"] 0
    (Except.ok (some (JsValue.str "done"))) c2McpLateResp "t9" rfl rfl rfl rfl

/-- C3.  After a call completes by either resolution path, the registry
no longer contains its correlation id.  On the delivered path the
calling fiber's last registry action is the post-race cleanup, which
deletes the id; on the timeout path (including a remote-error delivery,
after which the race can only finish once the timeout arm has run) the
timeout arm deletes the id, and every later event except a re-use of the
same id — impossible for fresh UUIDs — keeps it absent. -/
theorem registry_clean_after_completion
    (s u : LlmState) (idL : String) (tr : List (Event Nat SamplingResponse))
    (t w : McpState) (idM : String) (trM : List (Event McpPendingInfo McpToolResponse))
    (h : ∀ rec, Event.register idL rec ∉ tr)
    (hM : ∀ rec, Event.register idM rec ∉ trM) :
    mapGet (run llmOps tr (step llmOps (Event.timeoutFire idL) s)).pending idL = none ∧
    mapGet (step llmOps (Event.cleanup idL) u).pending idL = none ∧
    mapGet (run mcpOps trM (step mcpOps (Event.timeoutFire idM) t)).pending idM = none ∧
    mapGet (step mcpOps (Event.cleanup idM) w).pending idM = none :=
  ⟨run_preserves_absent llmOps tr _ idL (mapGet_mapDelete_self s.pending idL) h,
   mapGet_mapDelete_self u.pending idL,
   run_preserves_absent mcpOps trM _ idM (mapGet_mapDelete_self t.pending idM) hM,
   mapGet_mapDelete_self w.pending idM⟩

/-- C3, witness: with a late delivery still arriving after the timeout
arm removed `r9` / `t9`, the registry does not contain the id. -/
theorem registry_clean_after_completion_witness :
    mapGet (run llmOps [Event.deliver c2LateResp]
      (step llmOps (Event.timeoutFire "r9") c1State)).pending "r9" = none ∧
    mapGet (step llmOps (Event.cleanup "r9") c1State).pending "r9" = none ∧
    mapGet (run mcpOps [Event.deliver c2McpLateResp]
      (step mcpOps (Event.timeoutFire "t9") c1McpState)).pending "t9" = none ∧
    mapGet (step mcpOps (Event.cleanup "t9") c1McpState).pending "t9" = none :=
  registry_clean_after_completion c1State c1State "r9" [Event.deliver c2LateResp]
    c1McpState c1McpState "t9" [Event.deliver c2McpLateResp]
    (by intro rec hmem; simp at hmem)
    (by intro rec hmem; simp at hmem)

/-- The `DaprError` produced when `publishEvent` fails. -/
def publishErr : DaprError :=
  { operation := "publishEvent",
    message := "Failed to publish event to pubsub/topic" }

/-- C4.  The claim requires that a publish failure leaves no waiter
registered.  In both call bodies the pending record is inserted before
`dapr.publishEvent`, and a publish failure aborts the Effect generator
with the `DaprError` without running any removal, so the record stays in
the registry permanently.  Evaluating the failing execution from the
empty state: the transport error is surfaced, yet the pending record is
still registered afterwards. -/
theorem publish_failure_leaves_waiter_registered :
    (sampleOnPublishFailure "req-1" 5 publishErr BridgeState.empty).2
      = SampleError.dapr publishErr ∧
    mapGet (sampleOnPublishFailure "req-1" 5 publishErr BridgeState.empty).1.pending "req-1"
      = some (0, 5) ∧
    (callToolOnPublishFailure "validate-readme" "req-2" 5 publishErr BridgeState.empty).2
      = CallToolError.dapr publishErr ∧
    mapGet (callToolOnPublishFailure "validate-readme" "req-2" 5 publishErr
        BridgeState.empty).1.pending "req-2"
      = some (0, { timestamp := 5, toolName := "validate-readme" }) := by
  refine ⟨rfl, rfl, rfl, rfl⟩

theorem resolveAt_length {α : Type} (ds : List (Option α)) (j : Nat) (w : α) :
    (resolveAt ds j w).length = ds.length := by
  induction ds generalizing j with
  | nil => rfl
  | cons d rest ih =>
    cases j with
    | zero => simp [resolveAt]
    | succ j => simp [resolveAt, ih]

theorem resolveAt_ne {α : Type} (ds : List (Option α)) (i j : Nat) (w : α)
    (h : i ≠ j) : (resolveAt ds j w)[i]? = ds[i]? := by
  induction ds generalizing i j with
  | nil => rfl
  | cons d rest ih =>
    cases j with
    | zero =>
      cases i with
      | zero => exact absurd rfl h
      | succ i => simp [resolveAt]
    | succ j =>
      cases i with
      | zero => simp [resolveAt]
      | succ i =>
        have hij : i ≠ j := fun hh => h (by rw [hh])
        simp [resolveAt, ih i j hij]

theorem mapGet_mapSet_cases {α : Type} (m : List (String × α)) (k k' : String) (v p : α)
    (h : mapGet (mapSet m k v) k' = some p) :
    (k' = k ∧ p = v) ∨ mapGet m k' = some p := by
  by_cases hk : k' = k
  · left
    rw [hk, mapGet_mapSet_self] at h
    injection h with h
    exact ⟨hk, h.symm⟩
  · right
    rw [mapGet_mapSet_ne m k' k v hk] at h
    exact h

theorem mapGet_mapDelete_subset {α : Type} (m : List (String × α)) (k k' : String) (p : α)
    (h : mapGet (mapDelete m k) k' = some p) : mapGet m k' = some p := by
  by_cases hk : k' = k
  · rw [hk, mapGet_mapDelete_self] at h
    cases h
  · rw [mapGet_mapDelete_ne m k' k hk] at h
    exact h

theorem getDeferred_of_unresolved {Rec Err Val : Type} (s : BridgeState Rec Err Val)
    (i : Nat) (h : s.deferreds[i]? = some none) : getDeferred s i = none := by
  unfold getDeferred
  rw [h]

/-- After the timeout arm has deleted a call’s correlation id, the
call’s deferred is unresolved and no pending entry references it any
more; this is the situation from which no later bridge event can ever
complete that deferred. -/
def DeferredIsolated {Rec Err Val : Type} (s : BridgeState Rec Err Val) (did : Nat) : Prop :=
  did < s.deferreds.length ∧ s.deferreds[did]? = some none ∧
  ∀ k q rec, mapGet s.pending k = some (q, rec) → q ≠ did

theorem step_preserves_isolated {Rec Resp Val Err : Type} (ops : BridgeOps Rec Resp Val Err)
    (e : Event Rec Resp) (s : BridgeState Rec Err Val) (did : Nat)
    (h : DeferredIsolated s did) : DeferredIsolated (step ops e s) did := by
  obtain ⟨hlen, hun, href⟩ := h
  cases e with
  | register id rec =>
    refine ⟨?_, get?_append_left _ _ _ _ hun, ?_⟩
    · show did < (s.deferreds ++ [none]).length
      rw [List.length_append]
      omega
    · intro k q rec' hk
      rcases mapGet_mapSet_cases s.pending id k (s.deferreds.length, rec) (q, rec') hk with
        ⟨hkk, hpv⟩ | hold
      · have hq : q = s.deferreds.length := congrArg Prod.fst hpv
        omega
      · exact href k q rec' hold
  | deliver resp =>
    show DeferredIsolated (handleResponse ops resp s) did
    cases hm : mapGet s.pending (ops.respId resp) with
    | none =>
      rw [handleResponse_unknown ops resp s hm]
      exact ⟨hlen, hun, href⟩
    | some p =>
      obtain ⟨q, rec⟩ := p
      have hq : q ≠ did := href _ _ _ hm
      have hdef := handleResponse_matched ops resp s q rec hm
      have hpend := handleResponse_pending ops resp s
      refine ⟨?_, ?_, ?_⟩
      · rw [hdef, resolveAt_length]
        exact hlen
      · rw [hdef, resolveAt_ne s.deferreds did q _ (Ne.symm hq)]
        exact hun
      · intro k q' rec' hk
        rw [hpend] at hk
        exact href k q' rec' hk
  | timeoutFire id =>
    refine ⟨hlen, hun, ?_⟩
    intro k q rec hk
    exact href k q rec (mapGet_mapDelete_subset s.pending id k (q, rec) hk)
  | cleanup id =>
    refine ⟨hlen, hun, ?_⟩
    intro k q rec hk
    exact href k q rec (mapGet_mapDelete_subset s.pending id k (q, rec) hk)

theorem run_preserves_isolated {Rec Resp Val Err : Type} (ops : BridgeOps Rec Resp Val Err)
    (t : List (Event Rec Resp)) (s : BridgeState Rec Err Val) (did : Nat)
    (h : DeferredIsolated s did) : DeferredIsolated (run ops t s) did := by
  induction t generalizing s with
  | nil => exact h
  | cons e t ih => exact ih (step ops e s) (step_preserves_isolated ops e s did h)

theorem timeoutFire_isolates {Rec Resp Val Err : Type} (ops : BridgeOps Rec Resp Val Err)
    (s : BridgeState Rec Err Val) (id : String) (did : Nat)
    (hlen : did < s.deferreds.length) (hun : s.deferreds[did]? = some none)
    (href : ∀ k q rec, mapGet s.pending k = some (q, rec) → q = did → k = id) :
    DeferredIsolated (step ops (Event.timeoutFire id) s) did := by
  refine ⟨hlen, hun, ?_⟩
  intro k q rec hk hq
  have hk₀ : mapGet (mapDelete s.pending id) k = some (q, rec) := hk
  have hk' := mapGet_mapDelete_subset s.pending id k (q, rec) hk₀
  have hkid := href k q rec hk' hq
  rw [hkid, mapGet_mapDelete_self] at hk₀
  cases hk₀

/-- C5.  The claim says that when the timeout elapses the bridge removes
the pending record and yields to the caller a timeout error carrying the
operation name, the correlation id and the configured timeout.  The
removal does happen, and the timeout arm does construct exactly such an
error (`sampleTimeoutArmError` / `callToolTimeoutArmError`) — but it
fails with it inside `Effect.race`, and `Effect.race` returns the first
arm to succeed, joining a failed arm instead of surfacing it.  Since the
arm has already deleted the registry entry, no delivery can ever resolve
the deferred afterwards (for any continuation trace of bridge events),
so the race — and with it `sample` / `callTool` — never completes: the
caller never receives the timeout error, contradicting the claim and
spec section 7’s requirement that a call must never hang. -/
theorem timeout_error_never_yielded
    (s : LlmState) (idL : String) (tms didL : Nat)
    (tL : List (Event Nat SamplingResponse))
    (t : McpState) (toolName idM : String) (didM : Nat)
    (tM : List (Event McpPendingInfo McpToolResponse))
    (hlenL : didL < s.deferreds.length)
    (hunL : s.deferreds[didL]? = some none)
    (hrefL : ∀ k q rec, mapGet s.pending k = some (q, rec) → q = didL → k = idL)
    (hlenM : didM < t.deferreds.length)
    (hunM : t.deferreds[didM]? = some none)
    (hrefM : ∀ k q rec, mapGet t.pending k = some (q, rec) → q = didM → k = idM) :
    mapGet (step llmOps (Event.timeoutFire idL) s).pending idL = none ∧
    (sampleTimeoutArmError idL tms).operation = "sample" ∧
    (sampleTimeoutArmError idL tms).timeoutMs = tms ∧
    (∃ pre post, (sampleTimeoutArmError idL tms).message = pre ++ idL ++ post) ∧
    raceWithFailedArm
        (getDeferred (run llmOps tL (step llmOps (Event.timeoutFire idL) s)) didL)
      = RaceOutcome.neverCompletes ∧
    mapGet (step mcpOps (Event.timeoutFire idM) t).pending idM = none ∧
    callToolTimeoutArmError toolName idM =
      { toolName := toolName, requestId := idM, timeoutMs := 30000 } ∧
    raceWithFailedArm
        (getDeferred (run mcpOps tM (step mcpOps (Event.timeoutFire idM) t)) didM)
      = RaceOutcome.neverCompletes := by
  have hisoL := run_preserves_isolated llmOps tL _ didL
    (timeoutFire_isolates llmOps s idL didL hlenL hunL hrefL)
  have hisoM := run_preserves_isolated mcpOps tM _ didM
    (timeoutFire_isolates mcpOps t idM didM hlenM hunM hrefM)
  refine ⟨mapGet_mapDelete_self s.pending idL, rfl, rfl,
          ⟨"Sampling request ", " timed out after " ++ toString tms ++ "ms",
            by simp [sampleTimeoutArmError, String.append_assoc]⟩,
          ?_, mapGet_mapDelete_self t.pending idM, rfl, ?_⟩
  · rw [getDeferred_of_unresolved _ didL hisoL.2.1]
    rfl
  · rw [getDeferred_of_unresolved _ didM hisoM.2.1]
    rfl

/-- C5, witness: after the timeout fired for `r1` / `t1`, even with a
late delivery still arriving, the race never completes. -/
theorem timeout_error_never_yielded_witness :
    mapGet (step llmOps (Event.timeoutFire "r1") c1State).pending "r1" = none ∧
    (sampleTimeoutArmError "r1" 5000).operation = "sample" ∧
    (sampleTimeoutArmError "r1" 5000).timeoutMs = 5000 ∧
    (∃ pre post, (sampleTimeoutArmError "r1" 5000).message = pre ++ "r1" ++ post) ∧
    raceWithFailedArm
        (getDeferred (run llmOps [Event.deliver c2LateResp]
          (step llmOps (Event.timeoutFire "r1") c1State)) 0)
      = RaceOutcome.neverCompletes ∧
    mapGet (step mcpOps (Event.timeoutFire "t1") c1McpState).pending "t1" = none ∧
    callToolTimeoutArmError "validate-readme" "t1" =
      { toolName := "validate-readme", requestId := "t1", timeoutMs := 30000 } ∧
    raceWithFailedArm
        (getDeferred (run mcpOps [Event.deliver c2McpLateResp]
          (step mcpOps (Event.timeoutFire "t1") c1McpState)) 0)
      = RaceOutcome.neverCompletes :=
  timeout_error_never_yielded c1State "r1" 5000 0 [Event.deliver c2LateResp]
    c1McpState "validate-readme" "t1" 0 [Event.deliver c2McpLateResp]
    (by decide) rfl
    (by
      intro k q rec hk hq
      by_cases hk1 : "r1" = k
      · exact hk1.symm
      · simp [c1State, mapGet, hk1] at hk)
    (by decide) rfl
    (by
      intro k q rec hk hq
      by_cases hk1 : "t1" = k
      · exact hk1.symm
      · simp [c1McpState, mapGet, hk1] at hk)

/-- C6.  A delivery whose correlation id is absent from the registry
logs a warning-level diagnostic and returns: it resolves no waiter,
leaves the pending map (hence every other pending record) unchanged, and
the modelled operation is total, so nothing throws. -/
theorem unknown_delivery_is_noop
    (s : LlmState) (r : SamplingResponse)
    (t : McpState) (q : McpToolResponse)
    (h : mapGet s.pending r.requestId = none)
    (hM : mapGet t.pending q.requestId = none) :
    handleResponse llmOps r s =
      { s with log := (LogLevel.warning, "Received response for unknown request") ::
          (LogLevel.debug, "Received sampling response") :: s.log } ∧
    (handleResponse llmOps r s).pending = s.pending ∧
    (handleResponse llmOps r s).deferreds = s.deferreds ∧
    handleResponse mcpOps q t =
      { t with log := (LogLevel.warning, "Received response for unknown request") ::
          (LogLevel.debug, "Received MCP tool response") :: t.log } ∧
    (handleResponse mcpOps q t).pending = t.pending ∧
    (handleResponse mcpOps q t).deferreds = t.deferreds := by
  have h₁ := handleResponse_unknown llmOps r s h
  have h₂ := handleResponse_unknown mcpOps q t hM
  exact ⟨h₁, by rw [h₁], by rw [h₁], h₂, by rw [h₂], by rw [h₂]⟩

/-- A response whose id `zz` matches nothing in the fixture states. -/
def c6Resp : SamplingResponse :=
  { requestId := "zz", content := "stray", model := "azure/gpt-4.1",
    tokensUsed := none, error := none }

/-- A tool response whose id `zz` matches nothing in the fixture states. -/
def c6McpResp : McpToolResponse :=
  { requestId := "zz", result := none, error := some "stray failure" }

/-- C6, witness: delivering unmatched responses to states that hold an
unrelated in-flight request changes nothing but the log. -/
theorem unknown_delivery_is_noop_witness :
    handleResponse llmOps c6Resp c1State =
      { c1State with log := (LogLevel.warning, "Received response for unknown request") ::
          (LogLevel.debug, "Received sampling response") :: c1State.log } ∧
    (handleResponse llmOps c6Resp c1State).pending = c1State.pending ∧
    (handleResponse llmOps c6Resp c1State).deferreds = c1State.deferreds ∧
    handleResponse mcpOps c6McpResp c1McpState =
      { c1McpState with log := (LogLevel.warning, "Received response for unknown request") ::
          (LogLevel.debug, "Received MCP tool response") :: c1McpState.log } ∧
    (handleResponse mcpOps c6McpResp c1McpState).pending = c1McpState.pending ∧
    (handleResponse mcpOps c6McpResp c1McpState).deferreds = c1McpState.deferreds :=
  unknown_delivery_is_noop c1State c6Resp c1McpState c6McpResp rfl rfl

/-- C7.  In the source order of both call bodies the pending record is
inserted strictly before the request envelope is published, and in the
bridge state in which the publish step executes (the state right after
registration) the correlation id is registered — the bridge never
publishes a request whose id is not yet in the registry. -/
theorem register_before_publish
    (s : LlmState) (idL : String) (ts : Nat)
    (t : McpState) (idM toolName : String) (tsM : Nat) :
    bridgeCallOrder.indexOf CallStep.registerPending <
      bridgeCallOrder.indexOf CallStep.publishRequest ∧
    CallStep.registerPending ∈ bridgeCallOrder ∧
    mapGet (step llmOps (Event.register idL ts) s).pending idL
      = some (s.deferreds.length, ts) ∧
    mapGet (step mcpOps
        (Event.register idM { timestamp := tsM, toolName := toolName }) t).pending idM
      = some (t.deferreds.length, { timestamp := tsM, toolName := toolName }) :=
  ⟨by decide, by decide,
   mapGet_mapSet_self s.pending idL (s.deferreds.length, ts),
   mapGet_mapSet_self t.pending idM
     (t.deferreds.length, { timestamp := tsM, toolName := toolName })⟩

/-- If a required string field decodes, the raw object holds that
string at that key. -/
theorem decodeStringField_some (v : JsValue) (k sv : String)
    (h : decodeStringField v k = some sv) : getField v k = some (JsValue.str sv) := by
  unfold decodeStringField at h
  split at h
  · rename_i heq
    injection h with h
    rw [h] at heq
    exact heq
  · cases h

/-- C8 counterexample.  The claim asserts that every accepted response
envelope carries exactly one of a success payload and an error string.
`McpToolResponseSchema` accepts an envelope with neither (`result` and
`error` are both optional) and one with both, and
`SamplingResponseSchema` accepts an envelope carrying both its required
success `content` and an `error` string. -/
theorem response_exactly_one_counterexample :
    decodeMcpToolResponse (JsValue.obj [("requestId", JsValue.str "r1")])
      = some { requestId := "r1", result := none, error := none } ∧
    decodeMcpToolResponse (JsValue.obj [("requestId", JsValue.str "r1"),
        ("result", JsValue.num 1), ("error", JsValue.str "boom")])
      = some { requestId := "r1", result := some (JsValue.num 1), error := some "boom" } ∧
    decodeSamplingResponse (JsValue.obj [("requestId", JsValue.str "r2"),
        ("content", JsValue.str "text"), ("model", JsValue.str "m"),
        ("error", JsValue.str "boom")])
      = some { requestId := "r2", content := "text", model := "m",
               tokensUsed := none, error := some "boom" } :=
  ⟨rfl, rfl, rfl⟩

/-- C8 amended.  The response schemas require the correlation id but
leave `result` and `error` independent optionals, so envelopes with both
or with neither are accepted on the wire; the one-of-two discipline
holds at interpretation time instead: a delivered response matching an
unresolved waiter resolves it with exactly one outcome — failure when
the error field is truthy (present and non-empty), success otherwise. -/
theorem delivery_resolution_is_binary
    (s : LlmState) (r : SamplingResponse) (did rec : Nat)
    (t : McpState) (q : McpToolResponse) (didM : Nat) (recM : McpPendingInfo)
    (v : JsValue) (respD : McpToolResponse)
    (h : mapGet s.pending r.requestId = some (did, rec))
    (hd : s.deferreds[did]? = some none)
    (hM : mapGet t.pending q.requestId = some (didM, recM))
    (hdM : t.deferreds[didM]? = some none)
    (hv : decodeMcpToolResponse v = some respD) :
    getField v "requestId" = some (JsValue.str respD.requestId) ∧
    ((jsTruthyStr r.error = true ∧
        getDeferred (handleResponse llmOps r s) did =
          some (Except.error { operation := "sample", message := r.error.getD "" })) ∨
     (jsTruthyStr r.error = false ∧
        getDeferred (handleResponse llmOps r s) did = some (Except.ok r.content))) ∧
    ((jsTruthyStr q.error = true ∧
        getDeferred (handleResponse mcpOps q t) didM =
          some (Except.error { toolName := recM.toolName, cause := q.error.getD "" })) ∨
     (jsTruthyStr q.error = false ∧
        getDeferred (handleResponse mcpOps q t) didM = some (Except.ok q.result))) := by
  refine ⟨?_, ?_, ?_⟩
  · unfold decodeMcpToolResponse at hv
    split at hv
    · rename_i rid err hrid herr
      injection hv with hv
      rw [← hv]
      exact decodeStringField_some v "requestId" rid hrid
    · cases hv
  · have hres := handleResponse_matched llmOps r s did rec h
    by_cases ht : jsTruthyStr r.error = true
    · left
      have ht₂ : jsTruthyStr (llmOps.respError r) = true := ht
      refine ⟨ht, ?_⟩
      rw [getDeferred_eq_some_iff, hres, if_pos ht₂]
      exact resolveAt_of_unresolved s.deferreds did _ hd
    · right
      have ht₂ : ¬jsTruthyStr (llmOps.respError r) = true := ht
      refine ⟨by simpa using ht, ?_⟩
      rw [getDeferred_eq_some_iff, hres, if_neg ht₂]
      exact resolveAt_of_unresolved s.deferreds did _ hd
  · have hres := handleResponse_matched mcpOps q t didM recM hM
    by_cases ht : jsTruthyStr q.error = true
    · left
      have ht₂ : jsTruthyStr (mcpOps.respError q) = true := ht
      refine ⟨ht, ?_⟩
      rw [getDeferred_eq_some_iff, hres, if_pos ht₂]
      exact resolveAt_of_unresolved t.deferreds didM _ hdM
    · right
      have ht₂ : ¬jsTruthyStr (mcpOps.respError q) = true := ht
      refine ⟨by simpa using ht, ?_⟩
      rw [getDeferred_eq_some_iff, hres, if_neg ht₂]
      exact resolveAt_of_unresolved t.deferreds didM _ hdM

/-- The minimal tool response envelope accepted by the schema. -/
def c8MinResp : McpToolResponse := { requestId := "r1", result := none, error := none }

/-- A response for `r1` carrying an error string. -/
def c8ErrResp : SamplingResponse :=
  { requestId := "r1", content := "", model := "azure/gpt-4.1",
    tokensUsed := none, error := some "invalid arguments" }

/-- C8 amended, witness: an error response to `r1` resolves the waiter
with failure, a success tool response to `t1` resolves with success, and
a decoded minimal tool envelope pins its correlation id. -/
theorem delivery_resolution_is_binary_witness :
    getField (JsValue.obj [("requestId", JsValue.str "r1")]) "requestId"
      = some (JsValue.str c8MinResp.requestId) ∧
    ((jsTruthyStr c8ErrResp.error = true ∧
        getDeferred (handleResponse llmOps c8ErrResp c1State) 0 =
          some (Except.error { operation := "sample", message := c8ErrResp.error.getD "" })) ∨
     (jsTruthyStr c8ErrResp.error = false ∧
        getDeferred (handleResponse llmOps c8ErrResp c1State) 0 =
          some (Except.ok c8ErrResp.content))) ∧
    ((jsTruthyStr c1McpResp.error = true ∧
        getDeferred (handleResponse mcpOps c1McpResp c1McpState) 0 =
          some (Except.error { toolName := c1Rec.toolName, cause := c1McpResp.error.getD "" })) ∨
     (jsTruthyStr c1McpResp.error = false ∧
        getDeferred (handleResponse mcpOps c1McpResp c1McpState) 0 =
          some (Except.ok c1McpResp.result))) :=
  delivery_resolution_is_binary c1State c8ErrResp 0 5 c1McpState c1McpResp 0 c1Rec
    (JsValue.obj [("requestId", JsValue.str "r1")]) c8MinResp rfl rfl rfl rfl rfl

/-- C9 counterexample.  The claim asserts the inbound router
acknowledges every message regardless of schema validation and drops
malformed envelopes with a logged warning.  Both routers instead answer
HTTP 500 (not an acknowledgment; the channel may redeliver) and log at
error level when the body fails CloudEvent validation. -/
theorem router_malformed_counterexample :
    (mcpEventsHandler (JsValue.str "not a cloud event") BridgeState.empty).status
      = some 500 ∧
    (mcpEventsHandler (JsValue.str "not a cloud event") BridgeState.empty).state.log.head?
      = some (LogLevel.error, "Failed to process event") ∧
    (mcpToolEventsHandler (JsValue.str "not a cloud event") BridgeState.empty).status
      = some 500 ∧
    (mcpToolEventsHandler (JsValue.str "not a cloud event")
        BridgeState.empty).state.log.head?
      = some (LogLevel.error, "Error processing MCP tool response") :=
  ⟨rfl, rfl, rfl, rfl⟩

/-- C9 amended.  A message whose body passes CloudEvent validation is
answered HTTP 200 whenever its type does not match, or it matches and
the data payload is dereferenceable — regardless of whether
`handleResponse` finds a waiter; a body failing validation is answered
HTTP 500 (so the channel does not see it as processed) and never reaches
`handleResponse` — registry and deferred store untouched; and a
schema-valid body of matching type whose data payload is `null` or
`undefined` kills the fiber on the `response.requestId` access — no
response at all is written, and the registry is likewise untouched. -/
theorem router_ack_behavior
    (body bodyBad bodyN bodyNM : JsValue) (ev evN evNM : CloudEvent)
    (s : LlmState) (t : McpState)
    (h : decodeCloudEvent body = some ev)
    (hd1 : ev.type = "mcp.sampling.response" →
      ∃ dv, jsGetProp ev.data "requestId" = some dv)
    (hd2 : ev.type = "mcp.tool.response" →
      ∃ dv, jsGetProp ev.data "requestId" = some dv)
    (hbad : decodeCloudEvent bodyBad = none)
    (hN : decodeCloudEvent bodyN = some evN)
    (hNty : evN.type = "mcp.sampling.response")
    (hNnull : jsGetProp evN.data "requestId" = none)
    (hM : decodeCloudEvent bodyNM = some evNM)
    (hMty : evNM.type = "mcp.tool.response")
    (hMnull : jsGetProp evNM.data "requestId" = none) :
    (mcpEventsHandler body s).status = some 200 ∧
    (mcpToolEventsHandler body t).status = some 200 ∧
    (mcpEventsHandler bodyBad s).status = some 500 ∧
    (mcpEventsHandler bodyBad s).state.pending = s.pending ∧
    (mcpEventsHandler bodyBad s).state.deferreds = s.deferreds ∧
    (mcpToolEventsHandler bodyBad t).status = some 500 ∧
    (mcpToolEventsHandler bodyBad t).state.pending = t.pending ∧
    (mcpToolEventsHandler bodyBad t).state.deferreds = t.deferreds ∧
    (mcpEventsHandler bodyN s).status = none ∧
    (mcpEventsHandler bodyN s).state.pending = s.pending ∧
    (mcpEventsHandler bodyN s).state.deferreds = s.deferreds ∧
    (mcpToolEventsHandler bodyNM t).status = none ∧
    (mcpToolEventsHandler bodyNM t).state.pending = t.pending ∧
    (mcpToolEventsHandler bodyNM t).state.deferreds = t.deferreds := by
  refine ⟨?_, ?_, ?_, ?_, ?_, ?_, ?_, ?_, ?_, ?_, ?_, ?_, ?_, ?_⟩
  · unfold mcpEventsHandler
    rw [h]
    by_cases hty : ev.type = "mcp.sampling.response"
    · rcases hd1 hty with ⟨dv, hdv⟩
      simp [hty, hdv, HandlerResult.status]
    · simp [hty, HandlerResult.status]
  · unfold mcpToolEventsHandler
    rw [h]
    by_cases hty : ev.type = "mcp.tool.response"
    · rcases hd2 hty with ⟨dv, hdv⟩
      simp [hty, hdv, HandlerResult.status]
    · simp [hty, HandlerResult.status]
  · unfold mcpEventsHandler
    rw [hbad]
    rfl
  · unfold mcpEventsHandler
    rw [hbad]
    rfl
  · unfold mcpEventsHandler
    rw [hbad]
    rfl
  · unfold mcpToolEventsHandler
    rw [hbad]
    rfl
  · unfold mcpToolEventsHandler
    rw [hbad]
    rfl
  · unfold mcpToolEventsHandler
    rw [hbad]
    rfl
  · unfold mcpEventsHandler
    rw [hN]
    simp [hNty, hNnull, HandlerResult.status]
  · unfold mcpEventsHandler
    rw [hN]
    simp [hNty, hNnull, HandlerResult.state]
  · unfold mcpEventsHandler
    rw [hN]
    simp [hNty, hNnull, HandlerResult.state]
  · unfold mcpToolEventsHandler
    rw [hM]
    simp [hMty, hMnull, HandlerResult.status]
  · unfold mcpToolEventsHandler
    rw [hM]
    simp [hMty, hMnull, HandlerResult.state]
  · unfold mcpToolEventsHandler
    rw [hM]
    simp [hMty, hMnull, HandlerResult.state]

/-- A well-formed CloudEvent body of type `mcp.sampling.response` whose
inner data references an id no registry contains. -/
def c9GoodBody : JsValue :=
  JsValue.obj [("specversion", JsValue.str "1.0"),
    ("type", JsValue.str "mcp.sampling.response"),
    ("source", JsValue.str "ai-svc"),
    ("id", JsValue.str "evt-1"),
    ("data", JsValue.obj [("requestId", JsValue.str "zz"),
      ("content", JsValue.str "hello"), ("model", JsValue.str "m")])]

/-- The decoded form of `c9GoodBody`. -/
def c9GoodEvent : CloudEvent :=
  { specversion := "1.0", type := "mcp.sampling.response", source := "ai-svc",
    id := "evt-1",
    data := JsValue.obj [("requestId", JsValue.str "zz"),
      ("content", JsValue.str "hello"), ("model", JsValue.str "m")] }

/-- A schema-valid `mcp.sampling.response` CloudEvent body carrying
`"data": null`. -/
def c9NullBody : JsValue :=
  JsValue.obj [("specversion", JsValue.str "1.0"),
    ("type", JsValue.str "mcp.sampling.response"),
    ("source", JsValue.str "ai-svc"),
    ("id", JsValue.str "evt-2"),
    ("data", JsValue.null)]

/-- The decoded form of `c9NullBody`. -/
def c9NullEvent : CloudEvent :=
  { specversion := "1.0", type := "mcp.sampling.response", source := "ai-svc",
    id := "evt-2", data := JsValue.null }

/-- A schema-valid `mcp.tool.response` CloudEvent body carrying
`"data": null`. -/
def c9NullToolBody : JsValue :=
  JsValue.obj [("specversion", JsValue.str "1.0"),
    ("type", JsValue.str "mcp.tool.response"),
    ("source", JsValue.str "mcp-srvr"),
    ("id", JsValue.str "evt-3"),
    ("data", JsValue.null)]

/-- The decoded form of `c9NullToolBody`. -/
def c9NullToolEvent : CloudEvent :=
  { specversion := "1.0", type := "mcp.tool.response", source := "mcp-srvr",
    id := "evt-3", data := JsValue.null }

/-- C9 amended, witness: a valid envelope for an unknown id is answered
200 by both routers; a malformed body is answered 500 with the bridge
state untouched; and valid envelopes of matching type with null data
kill the respective fiber without a reply, also leaving the registry
untouched. -/
theorem router_ack_behavior_witness :
    (mcpEventsHandler c9GoodBody c1State).status = some 200 ∧
    (mcpToolEventsHandler c9GoodBody c1McpState).status = some 200 ∧
    (mcpEventsHandler (JsValue.str "garbage") c1State).status = some 500 ∧
    (mcpEventsHandler (JsValue.str "garbage") c1State).state.pending
      = c1State.pending ∧
    (mcpEventsHandler (JsValue.str "garbage") c1State).state.deferreds
      = c1State.deferreds ∧
    (mcpToolEventsHandler (JsValue.str "garbage") c1McpState).status = some 500 ∧
    (mcpToolEventsHandler (JsValue.str "garbage") c1McpState).state.pending
      = c1McpState.pending ∧
    (mcpToolEventsHandler (JsValue.str "garbage") c1McpState).state.deferreds
      = c1McpState.deferreds ∧
    (mcpEventsHandler c9NullBody c1State).status = none ∧
    (mcpEventsHandler c9NullBody c1State).state.pending = c1State.pending ∧
    (mcpEventsHandler c9NullBody c1State).state.deferreds = c1State.deferreds ∧
    (mcpToolEventsHandler c9NullToolBody c1McpState).status = none ∧
    (mcpToolEventsHandler c9NullToolBody c1McpState).state.pending
      = c1McpState.pending ∧
    (mcpToolEventsHandler c9NullToolBody c1McpState).state.deferreds
      = c1McpState.deferreds :=
  router_ack_behavior c9GoodBody (JsValue.str "garbage") c9NullBody c9NullToolBody
    c9GoodEvent c9NullEvent c9NullToolEvent c1State c1McpState
    rfl
    (fun _ => ⟨JsValue.str "zz", rfl⟩)
    (fun hty => absurd hty (by decide))
    rfl rfl rfl rfl rfl rfl rfl

/-- A schema-valid CloudEvent body of an unrelated type carrying
`"data": null`, and its decoded form. -/
def c10NullBody : JsValue :=
  JsValue.obj [("specversion", JsValue.str "1.0"),
    ("type", JsValue.str "something.else"),
    ("source", JsValue.str "x"),
    ("id", JsValue.str "e3"),
    ("data", JsValue.null)]

/-- The decoded form of `c10NullBody`. -/
def c10NullEvent : CloudEvent :=
  { specversion := "1.0", type := "something.else", source := "x", id := "e3",
    data := JsValue.null }

/-- C10 counterexample.  The claim says an event matching neither
predicate is rejected with HTTP 400.  A CloudEvent with an unrelated
type and `"data": null` is schema-valid (`data` is `Schema.Unknown`) and
matches neither predicate, yet it is not answered 400: evaluating
`(decoded.data as any).requestId` throws a TypeError, the fiber dies and
no response is written. -/
theorem ai_events_null_data_counterexample :
    decodeCloudEvent c10NullBody = some c10NullEvent ∧
    aiEventsRoute c10NullEvent = AiEventOutcome.crashed ∧
    aiEventsRoute c10NullEvent ≠ AiEventOutcome.rejected 400 :=
  ⟨rfl, rfl, by decide⟩

/-- C10 amended.  The `/ai-events` routing on a validated CloudEvent:
only `agent.request` events are handled as agent requests; any other
event is handled as a sampling request exactly when its type is
`sampling.request` or the `requestId` property access on its data
evaluates (data not `null`/`undefined`) to a truthy value; it is
rejected with HTTP 400 exactly when the access evaluates to a falsy
value; and when the access itself throws — `data` `null` or `undefined`
— the fiber dies and no response is written at all. -/
theorem ai_events_routing (ev : CloudEvent) :
    (aiEventsRoute ev = AiEventOutcome.agentHandled ↔ ev.type = "agent.request") ∧
    (aiEventsRoute ev = AiEventOutcome.samplingHandled ↔
      (ev.type ≠ "agent.request" ∧
        (ev.type = "sampling.request" ∨
          ∃ v, jsGetProp ev.data "requestId" = some v ∧ jsTruthy v = true))) ∧
    (aiEventsRoute ev = AiEventOutcome.rejected 400 ↔
      (ev.type ≠ "agent.request" ∧ ev.type ≠ "sampling.request" ∧
        ∃ v, jsGetProp ev.data "requestId" = some v ∧ jsTruthy v = false)) ∧
    (aiEventsRoute ev = AiEventOutcome.crashed ↔
      (ev.type ≠ "agent.request" ∧ ev.type ≠ "sampling.request" ∧
        jsGetProp ev.data "requestId" = none)) := by
  unfold aiEventsRoute
  by_cases h₁ : ev.type = "agent.request"
  · simp [h₁]
  · by_cases h₂ : ev.type = "sampling.request"
    · simp [h₁, h₂]
    · cases hget : jsGetProp ev.data "requestId" with
      | none => simp [h₁, h₂, hget]
      | some v =>
        by_cases h₃ : jsTruthy v
        · simp [h₁, h₂, hget, h₃]
        · simp [h₁, h₂, hget, h₃]

/-- A CloudEvent of an unrelated type whose data nevertheless carries a
truthy `requestId`. -/
def c10Event : CloudEvent :=
  { specversion := "1.0", type := "something.else", source := "x", id := "e2",
    data := JsValue.obj [("requestId", JsValue.str "abc")] }

/-- C10, witness: an event of unrelated type with a truthy `requestId`
is routed as a sampling request. -/
theorem ai_events_routing_witness :
    aiEventsRoute c10Event = AiEventOutcome.samplingHandled :=
  (ai_events_routing c10Event).2.1.mpr
    ⟨by decide, Or.inr ⟨JsValue.str "abc", rfl, rfl⟩⟩

/-- C7, witness at concrete inputs: registering `r1` / `t1` from the
empty state. -/
theorem register_before_publish_witness :
    bridgeCallOrder.indexOf CallStep.registerPending <
      bridgeCallOrder.indexOf CallStep.publishRequest ∧
    CallStep.registerPending ∈ bridgeCallOrder ∧
    mapGet (step llmOps (Event.register "r1" 5)
        (BridgeState.empty : LlmState)).pending "r1"
      = some ((BridgeState.empty : LlmState).deferreds.length, 5) ∧
    mapGet (step mcpOps
        (Event.register "t1" { timestamp := 7, toolName := "validate-readme" })
        (BridgeState.empty : McpState)).pending "t1"
      = some ((BridgeState.empty : McpState).deferreds.length,
          { timestamp := 7, toolName := "validate-readme" }) :=
  register_before_publish BridgeState.empty "r1" 5 BridgeState.empty "t1"
    "validate-readme" 7

end PubsubMcp
